import Mathlib

/-!
Verification of the link-lib npm-link helper.

The repository contains two variants of the same script:
src/index.js and src/unnamed/part_000 (referred to below as the
index variant and the part variant). Both read the application
and library manifests, detect link state via symlink inspection,
ensure a global alias and an application-side link, check peer
dependencies, and on teardown restore the original dependency
declaration.

Shallow embedding choices:
- A manifest is a structure of optional association lists
  (absent field = undefined object in the source).
- The external semver library (valid, validRange, intersects) is a
  boundary collaborator of the script; it is passed in as function
  parameters, and concrete sample tables faithful to real semver on
  the inputs used appear for witnesses and counterexamples.
- JavaScript truthiness of strings (the empty string is falsy) is
  modelled explicitly where the source relies on it.
- The filesystem operations used by isSymlinkTo (lstat, readlink,
  realpath) are modelled as an FS record of partial functions; a
  result of none models the operation throwing, which the source
  converts to a false result via try/catch.
- The link and unlink control flows are modelled as functions from
  an abstract world (state of the global and application dependency
  slots) to a trace of observable steps plus an optional final
  world; none models the run aborting with a non-zero exit. The
  package manager commands are boundary collaborators passed in as
  an NpmModel record of world transformers (none = command failed).
-/

namespace LinkLib

/-- A package manifest: the fields of package.json the script reads.
Each dependency section is an association list from package name to
declared version-spec string; none models an absent field. -/
structure Manifest where
  name : Option String
  dependencies : Option (List (String × String))
  devDependencies : Option (List (String × String))
  optionalDependencies : Option (List (String × String))
  peerDependencies : Option (List (String × String))

/-- Lookup of a key in an optional dependency section. -/
def lkp (o : Option (List (String × String))) (k : String) : Option String :=
  match o with
  | none => none
  | some l => l.lookup k

/-- JavaScript truthiness filter on a string value: the empty string
is falsy, so it is collapsed to none. -/
def truthy (o : Option String) : Option String :=
  match o with
  | some v => if v = "" then none else some v
  | none => none

/-- Source: inDeps = appPkg.dependencies and libName in appPkg.dependencies. -/
def inDeps (app : Manifest) (lib : String) : Bool :=
  (lkp app.dependencies lib).isSome

/-- Source: inDevDeps = appPkg.devDependencies and libName in appPkg.devDependencies. -/
def inDevDeps (app : Manifest) (lib : String) : Bool :=
  (lkp app.devDependencies lib).isSome

/-- Source: originalSpec = (inDeps and deps[lib]) or (inDevDeps and devDeps[lib]) or null.
The or-chain takes the first truthy value, so an empty-string
declaration falls through. -/
def originalSpec (app : Manifest) (lib : String) : Option String :=
  match truthy (lkp app.dependencies lib) with
  | some v => some v
  | none => truthy (lkp app.devDependencies lib)

/-- Source: originalSpec.startsWith(\x22file:\x22). -/
def isFileRef (s : String) : Bool :=
  "file:".toList.isPrefixOf s.toList

/-- JavaScript regex word character class: [A-Za-z0-9_]. -/
def wordChar (c : Char) : Bool :=
  (('A' ≤ c && c ≤ 'Z') || ('a' ≤ c && c ≤ 'z') || ('0' ≤ c && c ≤ '9') || c == '_')

/-- The source regex test (dash followed by one or more word
characters, tested anywhere in the string): some dash immediately
followed by a word character occurs. -/
def hasDashWord : List Char → Bool
  | [] => false
  | [_] => false
  | c :: d :: rest => (c == '-' && wordChar d) || hasDashWord (d :: rest)

/-- The argument list the unlink flow passes to npm install,
translated from the source (identical in both variants):
base flags install plus save-dev or save-prod, then either the bare
name (no usable original spec, or a file: reference) or name at spec,
with save-exact appended when semver.valid(spec) succeeds or the
dash-word regex matches. -/
def installArgs (semverValid : String → Bool) (app : Manifest) (lib : String) : List String :=
  let base := ["install", if inDevDeps app lib then "--save-dev" else "--save-prod"]
  match originalSpec app lib with
  | some spec =>
    if isFileRef spec then base ++ [lib]
    else if semverValid spec || hasDashWord spec.toList then
      base ++ [lib ++ "@" ++ spec, "--save-exact"]
    else base ++ [lib ++ "@" ++ spec]
  | none => base ++ [lib]

/-- The merged application dependency object
appDeps = spread of dependencies, devDependencies, optionalDependencies:
pointwise, a later section wins over an earlier one. -/
def appMergedDeps (app : Manifest) (name : String) : Option String :=
  match lkp app.optionalDependencies name with
  | some v => some v
  | none =>
    match lkp app.devDependencies name with
    | some v => some v
    | none => lkp app.dependencies name

/-- One pass of the warnPeerDeps loop over the peer entries, building
the missing list (name, range) and the out-of-range list
(name, installed, range). Messages are modelled as structured tuples
rather than the formatted strings the source prints. -/
def peerCheck (vr : String → Bool) (its : String → String → Bool) (app : Manifest) :
    List (String × String) → List (String × String) × List (String × String × String)
  | [] => ([], [])
  | (name, range) :: rest =>
    let r := peerCheck vr its app rest
    match truthy (appMergedDeps app name) with
    | none => ((name, range) :: r.1, r.2)
    | some v =>
      if vr range && vr v then
        if its range v then r else (r.1, (name, v, range) :: r.2)
      else r

/-- Source warnPeerDeps (identical in both variants): returns early
when the library declares no peerDependencies; otherwise folds
peerCheck over the entries. vr models semver.validRange and its
models semver.intersects. -/
def warnPeerDeps (vr : String → Bool) (its : String → String → Bool)
    (appPkg libPkg : Manifest) :
    List (String × String) × List (String × String × String) :=
  match libPkg.peerDependencies with
  | none => ([], [])
  | some peers => peerCheck vr its appPkg peers

/-- What fs.lstatSync reports about a path. -/
inductive FileKind
  | file
  | dir
  | symlink
deriving DecidableEq, Repr

/-- The filesystem operations isSymlinkTo consumes; none models the
call throwing (for example on a non-existent path). -/
structure FS where
  lstat : String → Option FileKind
  readlink : String → Option String
  realpath : String → Option String

/-- Source realEquals: realpathSync both paths and compare; any throw
is caught and yields false. -/
def realEquals (fs : FS) (aPath bPath : String) : Bool :=
  match fs.realpath aPath, fs.realpath bPath with
  | some a, some b => a == b
  | _, _ => false

/-- Source isSymlinkTo: lstat the path, require a symbolic link, read
the link, resolve it against the directory of the link path (the res
parameter models path.resolve applied to dirname and the link text),
and compare real paths; every throw is caught and yields false. -/
def isSymlinkTo (fs : FS) (res : String → String → String)
    (linkPath expectedTargetAbs : String) : Bool :=
  match fs.lstat linkPath with
  | none => false
  | some FileKind.symlink =>
    match fs.readlink linkPath with
    | none => false
    | some link => realEquals fs (res linkPath link) expectedTargetAbs
  | some _ => false

/-- Abstract state of one dependency slot (the global alias slot or
the application node_modules slot): nothing there, a symlink whose
real path is the library directory, or something else present (a
regular install directory or a link pointing elsewhere). -/
inductive SlotState
  | absent
  | linkedToLib
  | presentOther
deriving DecidableEq, Repr, Fintype

/-- Abstract world the link flow reads and mutates. -/
structure World where
  globalSlot : SlotState
  appSlot : SlotState
deriving DecidableEq, Repr, Fintype

/-- The package manager commands the flows invoke, as boundary
collaborators: each is a world transformer, none meaning the command
exited non-zero (a failing command is modelled as leaving the world
unchanged at the point of use). rmApp models the direct fs.rmSync of
the application slot. -/
structure NpmModel where
  linkGlobal : World → Option World
  linkApp : World → Option World
  unlinkApp : World → Option World
  rmApp : World → Option World

/-- Observable steps of the link flow, in execution order. -/
inductive Step
  | status (globalLinked appLinked hasFolder : Bool)
  | statusApp (appLinked hasFolder : Bool)
  | ensureGlobalCmd
  | skipGlobal
  | globalWarn
  | skipApp
  | rmFolder
  | linkAppCmd
  | unlinkAppCmd
  | verify (ok : Bool)
  | warnPeers
  | watch
deriving DecidableEq, Repr

/-- Removal of an existing non-symlink install before linking:
fs.rmSync inside try/catch, a failure being tolerated (the world is
left unchanged and the flow continues). -/
def cleanStep (npm : NpmModel) (w : World) (hasFolder : Bool) : List Step × World :=
  if hasFolder then
    match npm.rmApp w with
    | some w2 => ([Step.rmFolder], w2)
    | none => ([Step.rmFolder], w)
  else ([], w)

/-- The world after the tolerated recovery unlink: the unlink result
when the command succeeded, the unchanged world when it failed (the
source catches and ignores the error). -/
def retryWorld (npm : NpmModel) (w : World) : World :=
  match npm.unlinkApp w with
  | some u => u
  | none => w

/-- The link attempt with its single recovery cycle, shared verbatim
by both variants: attempt npm link of the library into the
application; on failure run one tolerated npm unlink and exactly one
relink; a second failure aborts (none). On success the link is
re-verified with isSymlinkTo. -/
def linkAttempts (npm : NpmModel) (w : World) : List Step × Option World :=
  match npm.linkApp w with
  | some w3 =>
    ([Step.linkAppCmd, Step.verify (w3.appSlot == SlotState.linkedToLib)], some w3)
  | none =>
    match npm.linkApp (retryWorld npm w) with
    | some w5 =>
      ([Step.linkAppCmd, Step.unlinkAppCmd, Step.linkAppCmd,
        Step.verify (w5.appSlot == SlotState.linkedToLib)], some w5)
    | none => ([Step.linkAppCmd, Step.unlinkAppCmd, Step.linkAppCmd], none)

/-- The application-side linking phase, shared verbatim by both
variants: skip when already linked; otherwise clean a stale install
and run the link attempts. -/
def appPhase (npm : NpmModel) (w : World) (aLinked hasFolder : Bool) :
    List Step × Option World :=
  if aLinked then ([Step.skipApp], some w)
  else
    ((cleanStep npm w hasFolder).1 ++ (linkAttempts npm (cleanStep npm w hasFolder).2).1,
      (linkAttempts npm (cleanStep npm w hasFolder).2).2)

/-- Append the tail of the run (peer-dependency warning, optional
watcher) when the preceding phases succeeded; a failed run ends with
the steps executed so far and no final world. -/
def withTail (dw : Bool) (pre : List Step) (res : List Step × Option World) :
    List Step × Option World :=
  match res with
  | (s, some w) =>
    (pre ++ s ++ [Step.warnPeers] ++ (if dw then [Step.watch] else []), some w)
  | (s, none) => (pre ++ s, none)

/-- Link flow of the index variant: detect both slots up front, skip
the global link command when the global slot already points at the
library, otherwise run it with NO try/catch (its failure aborts the
run), then the shared application phase. -/
def linkFlowIndex (npm : NpmModel) (dw : Bool) (w : World) : List Step × Option World :=
  let g := w.globalSlot == SlotState.linkedToLib
  let a := w.appSlot == SlotState.linkedToLib
  let f := w.appSlot == SlotState.presentOther
  let st := Step.status g a f
  if g then withTail dw [st, Step.skipGlobal] (appPhase npm w a f)
  else
    match npm.linkGlobal w with
    | some w2 => withTail dw [st, Step.ensureGlobalCmd] (appPhase npm w2 a f)
    | none => ([st, Step.ensureGlobalCmd], none)

/-- Link flow of the part variant: no global-slot detection; the
global link command runs unconditionally inside try/catch, a failure
being advisory (a warning step, the run continues on the unchanged
world), then the shared application phase. -/
def linkFlowPart (npm : NpmModel) (dw : Bool) (w : World) : List Step × Option World :=
  let a := w.appSlot == SlotState.linkedToLib
  let f := w.appSlot == SlotState.presentOther
  let st := Step.statusApp a f
  match npm.linkGlobal w with
  | some w2 => withTail dw [st, Step.ensureGlobalCmd] (appPhase npm w2 a f)
  | none =>
    withTail dw [st, Step.ensureGlobalCmd, Step.globalWarn] (appPhase npm w a f)

/-- Observable steps of the unlink flow. -/
inductive UStep
  | unlinkCmd
  | unlinkWarn
  | installCmd
  | unlinkGlobalCmd
  | unlinkGlobalWarn
  | rmGlobal
  | rmWarn
deriving DecidableEq, Repr

/-- Unlink-global phase of the index variant: npm unlink -g inside
try/catch (failure advisory), then, if the global alias directory
still exists, a direct recursive removal, itself inside try/catch.
The boolean oracles stand for the success of the unlink command, the
existence check after it, and the success of the removal. -/
def unlinkGlobalPhaseIndex (gOk gExists rmOk : Bool) : List UStep :=
  ([UStep.unlinkGlobalCmd] ++ (if gOk then [] else [UStep.unlinkGlobalWarn])) ++
    (if gExists then [UStep.rmGlobal] ++ (if rmOk then [] else [UStep.rmWarn]) else [])

/-- Unlink-global phase of the part variant: only the tolerated
npm unlink -g, no direct directory removal. -/
def unlinkGlobalPhasePart (gOk : Bool) : List UStep :=
  [UStep.unlinkGlobalCmd] ++ (if gOk then [] else [UStep.unlinkGlobalWarn])

/-- Unlink flow of the index variant: tolerated npm unlink in the
application, then the reinstall command (fatal on failure), then the
optional unlink-global phase. The boolean result is success of the
whole run (exit code zero). -/
def unlinkFlowIndex (appUnlinkOk installOk doUG gOk gExists rmOk : Bool) :
    List UStep × Bool :=
  let t0 := [UStep.unlinkCmd] ++ (if appUnlinkOk then [] else [UStep.unlinkWarn])
  let t1 := t0 ++ [UStep.installCmd]
  if installOk then
    (t1 ++ (if doUG then unlinkGlobalPhaseIndex gOk gExists rmOk else []), true)
  else (t1, false)

/-- Unlink flow of the part variant. -/
def unlinkFlowPart (appUnlinkOk installOk doUG gOk : Bool) : List UStep × Bool :=
  let t0 := [UStep.unlinkCmd] ++ (if appUnlinkOk then [] else [UStep.unlinkWarn])
  let t1 := t0 ++ [UStep.installCmd]
  if installOk then
    (t1 ++ (if doUG then unlinkGlobalPhasePart gOk else []), true)
  else (t1, false)

/-! Concrete sample instantiations of the boundary collaborators, used
by witnesses and counterexamples. The semver tables agree with the
real semver library on every input they are applied to. -/

/-- Sample of semver.valid: the listed strings are fully resolved
versions, the others used in this file (ranges, the empty string,
bare tags) are not. -/
def svSample : String → Bool := fun s =>
  s == "1.2.3" || s == "2.0.0" || s == "0.5.0-nightly.5"

/-- Sample of semver.validRange: caret ranges are valid, and so is
the empty string (semver parses it as the any-version range). -/
def vrSample : String → Bool := fun s =>
  s == "^1.0.0" || s == "^2.0.0" || s == "^1.2.0" || s == ""

/-- Sample of semver.intersects on the pairs used: a caret range
intersects a sub-range of itself and the any-version empty range, and
disjoint caret ranges do not intersect. -/
def itsSample : String → String → Bool := fun a b =>
  (a == "^1.0.0" && b == "^1.2.0") || (a == "^1.0.0" && b == "")

/-- Application manifest declaring the library at an exact version. -/
def appExact : Manifest := ⟨none, some [("mylib", "1.2.3")], none, none, none⟩

/-- Application manifest declaring the library at a caret range. -/
def appRange : Manifest := ⟨none, some [("mylib", "^1.2.3")], none, none, none⟩

/-- Application manifest with no declaration for the library. -/
def appAbsent : Manifest := ⟨none, none, none, none, none⟩

/-- Application manifest declaring the library in both sections, with
an empty string in dependencies. -/
def appDual : Manifest :=
  ⟨none, some [("l", "")], some [("l", "2.0.0")], none, none⟩

/-- Application manifest declaring the library in both sections with
non-empty values. -/
def appDualNonEmpty : Manifest :=
  ⟨none, some [("l", "1.2.3")], some [("l", "^1.0.0")], none, none⟩

/-- Application manifest declaring a peer dependency with the empty
string as its value. -/
def appEmptyDep : Manifest := ⟨none, some [("p", "")], none, none, none⟩

/-- Application manifest whose devDependencies declare p at a range
disjoint from the library requirement. -/
def appMismatch : Manifest :=
  ⟨none, none, some [("p", "^2.0.0")], none, none⟩

/-- Library manifest with one peer dependency. -/
def libPeer : Manifest := ⟨some "lib", none, none, none, some [("p", "^1.0.0")]⟩

/-- Library manifest with two peer dependencies. -/
def libPeerTwo : Manifest :=
  ⟨some "lib", none, none, none, some [("p", "^1.0.0"), ("q", "^1.0.0")]⟩

/-- Application manifest declaring q in all three sections with
distinct values. -/
def appTriple : Manifest :=
  ⟨none, some [("q", "1.0.0")], some [("q", "2.0.0")], some [("q", "3.0.0")], none⟩

/-- Sample filesystem: one proper symlink, one regular file, and real
paths making the symlink resolve to the same real path as the target. -/
def fsSample : FS :=
  ⟨fun p => if p = "/link" then some FileKind.symlink
    else if p = "/file" then some FileKind.file else none,
   fun p => if p = "/link" then some "target" else none,
   fun p => if p = "/resolved" then some "/real"
    else if p = "/tgt" then some "/real" else none⟩

/-- Sample path resolution used with fsSample. -/
def resSample : String → String → String := fun _ _ => "/resolved"

/-- A package manager model whose commands all succeed and have the
documented effect on the relevant slot. -/
def npmGood : NpmModel :=
  ⟨fun u => some ⟨SlotState.linkedToLib, u.appSlot⟩,
   fun u => some ⟨u.globalSlot, SlotState.linkedToLib⟩,
   fun u => some ⟨u.globalSlot, SlotState.absent⟩,
   fun u => some ⟨u.globalSlot, SlotState.absent⟩⟩

/-- A package manager model whose global link command always fails. -/
def npmNoGlobal : NpmModel :=
  ⟨fun _ => none,
   fun u => some ⟨u.globalSlot, SlotState.linkedToLib⟩,
   fun u => some ⟨u.globalSlot, SlotState.absent⟩,
   fun u => some ⟨u.globalSlot, SlotState.absent⟩⟩

/-- A package manager model whose application link command always
fails while unlink leaves the world unchanged. -/
def npmDead : NpmModel :=
  ⟨fun u => some ⟨SlotState.linkedToLib, u.appSlot⟩,
   fun _ => none,
   fun u => some u,
   fun u => some u⟩

/-- The world with both slots empty. -/
def wEmpty : World := ⟨SlotState.absent, SlotState.absent⟩

/-- The world with both slots linked to the library. -/
def wBoth : World := ⟨SlotState.linkedToLib, SlotState.linkedToLib⟩

/-- The world with only the global slot linked. -/
def wGlobalOnly : World := ⟨SlotState.linkedToLib, SlotState.absent⟩

/-- C1: in the unlink/restore flow, when the determined original spec
is absent (null after the truthiness-based selection) or a file:
reference, the reinstall command gets the bare package name; otherwise
it gets the exact string name-at-spec, and the save-exact flag is
appended exactly when semver.valid accepts the spec or the spec
matches the dash-word (prerelease/tag-like suffix) regex — so an
exact spec gets the flag and a plain caret range does not. -/
theorem restore_spec_policy (sv : String → Bool) (app : Manifest) (lib : String) :
    (originalSpec app lib = none →
      installArgs sv app lib =
        ["install", if inDevDeps app lib then "--save-dev" else "--save-prod", lib]) ∧
    (∀ spec, originalSpec app lib = some spec → isFileRef spec = true →
      installArgs sv app lib =
        ["install", if inDevDeps app lib then "--save-dev" else "--save-prod", lib]) ∧
    (∀ spec, originalSpec app lib = some spec → isFileRef spec = false →
      installArgs sv app lib =
        ["install", if inDevDeps app lib then "--save-dev" else "--save-prod",
          lib ++ "@" ++ spec] ++
          (if sv spec || hasDashWord spec.toList then ["--save-exact"] else [])) := by
  refine ⟨?_, ?_, ?_⟩
  · intro h
    simp [installArgs, h]
  · intro spec h hf
    simp [installArgs, h, hf]
  · intro spec h hf
    cases hs : sv spec <;> cases hd : hasDashWord spec.data <;>
      simp [installArgs, h, hf, hs, hd]

/-- Witness for C1: the exact spec 1.2.3 is reinstalled with
save-exact, the caret range without it, and an absent declaration
falls back to the bare name. -/
theorem restore_spec_policy_witness :
    installArgs svSample appExact "mylib" =
      ["install", "--save-prod", "mylib@1.2.3", "--save-exact"] ∧
    installArgs svSample appRange "mylib" =
      ["install", "--save-prod", "mylib@^1.2.3"] ∧
    installArgs svSample appAbsent "mylib" = ["install", "--save-prod", "mylib"] := by
  refine ⟨?_, ?_, ?_⟩
  · have h := (restore_spec_policy svSample appExact "mylib").2.2 "1.2.3"
      (by decide) (by decide)
    rw [h]; decide
  · have h := (restore_spec_policy svSample appRange "mylib").2.2 "^1.2.3"
      (by decide) (by decide)
    rw [h]; decide
  · have h := (restore_spec_policy svSample appAbsent "mylib").1 (by decide)
    rw [h]; decide

/-- C7: the reinstall command always carries save-dev exactly when the
library name is declared (membership, whatever the value) in the
devDependencies of the application, and save-prod otherwise; the flag
is the second argument. -/
theorem restore_section_flag (sv : String → Bool) (app : Manifest) (lib : String) :
    (installArgs sv app lib)[1]? =
      some (if inDevDeps app lib then "--save-dev" else "--save-prod") := by
  cases h : originalSpec app lib with
  | none => simp [installArgs, h]
  | some spec =>
    cases hf : isFileRef spec with
    | true => simp [installArgs, h, hf]
    | false =>
      cases hs : sv spec <;> cases hd : hasDashWord spec.data <;>
        simp [installArgs, h, hf, hs, hd]

/-- C9 counterexample: with the library declared in both sections but
with the empty string in dependencies, the reinstalled spec is the
devDependencies value, not the dependencies value the claim
prescribes. -/
theorem dual_section_empty_dep_cex :
    lkp appDual.dependencies "l" = some "" ∧
    lkp appDual.devDependencies "l" = some "2.0.0" ∧
    installArgs svSample appDual "l" =
      ["install", "--save-dev", "l@2.0.0", "--save-exact"] ∧
    installArgs svSample appDual "l" ≠ ["install", "--save-dev", "l@", "--save-exact"] ∧
    installArgs svSample appDual "l" ≠ ["install", "--save-dev", "l@"] := by
  refine ⟨by decide, by decide, by decide, by decide, by decide⟩

/-- C9 amended: when the library is declared in both sections and the
dependencies value is non-empty, the spec is taken from dependencies
while the save-dev flag is still used (an empty dependencies value
instead falls through to the devDependencies value). -/
theorem dual_section_restore (sv : String → Bool) (app : Manifest) (lib v : String)
    (h1 : lkp app.dependencies lib = some v) (hv : v ≠ "")
    (h2 : inDevDeps app lib = true) (h3 : isFileRef v = false) :
    installArgs sv app lib =
      ["install", "--save-dev", lib ++ "@" ++ v] ++
        (if sv v || hasDashWord v.toList then ["--save-exact"] else []) := by
  have ho : originalSpec app lib = some v := by
    simp [originalSpec, truthy, h1, hv]
  cases hs : sv v <;> cases hd : hasDashWord v.data <;>
    simp [installArgs, ho, h2, h3, hs, hd]

/-- Witness for the amended C9: a non-empty dependencies value wins
for the spec while devDependencies wins for the section flag. -/
theorem dual_section_restore_witness :
    installArgs svSample appDualNonEmpty "l" =
      ["install", "--save-dev", "l@1.2.3", "--save-exact"] := by
  have h := dual_section_restore svSample appDualNonEmpty "l" "1.2.3"
    (by decide) (by decide) (by decide) (by decide)
  rw [h]; decide

/-- C4: isSymlinkTo is a total boolean function of the modelled
filesystem: false when lstat fails (path does not exist), false when
the path is not a symbolic link, and true exactly when the path is a
symlink whose resolved real path and the real path of the target both
exist and coincide (so a symlink resolving elsewhere, or any throwing
operation, yields false). -/
theorem isSymlinkTo_characterization (fs : FS) (res : String → String → String)
    (p t : String) :
    (fs.lstat p = none → isSymlinkTo fs res p t = false) ∧
    (∀ k, fs.lstat p = some k → k ≠ FileKind.symlink → isSymlinkTo fs res p t = false) ∧
    (isSymlinkTo fs res p t = true ↔
      (fs.lstat p = some FileKind.symlink ∧ ∃ l, fs.readlink p = some l ∧
        ∃ r, fs.realpath (res p l) = some r ∧ fs.realpath t = some r)) := by
  refine ⟨?_, ?_, ?_⟩
  · intro h
    simp [isSymlinkTo, h]
  · intro k hk hne
    cases k with
    | file => simp [isSymlinkTo, hk]
    | dir => simp [isSymlinkTo, hk]
    | symlink => exact absurd rfl hne
  · cases hl : fs.lstat p with
    | none => simp [isSymlinkTo, hl]
    | some k =>
      cases k with
      | file => simp [isSymlinkTo, hl]
      | dir => simp [isSymlinkTo, hl]
      | symlink =>
        cases hr : fs.readlink p with
        | none => simp [isSymlinkTo, hl, hr]
        | some l =>
          cases h3 : fs.realpath (res p l) with
          | none => simp [isSymlinkTo, realEquals, hl, hr, h3]
          | some a =>
            cases h4 : fs.realpath t with
            | none => simp [isSymlinkTo, realEquals, hl, hr, h3, h4]
            | some b =>
              simp only [isSymlinkTo, realEquals, hl, hr, h3, h4, beq_iff_eq]
              constructor
              · intro hab
                exact ⟨trivial, l, rfl, a, h3, by rw [hab]⟩
              · rintro ⟨-, l2, hl2, r, hres, hbr⟩
                have hll : l = l2 := Option.some.inj hl2
                rw [← hll] at hres
                rw [h3] at hres
                have har : a = r := Option.some.inj hres
                have hbr2 : b = r := Option.some.inj hbr
                rw [har, hbr2]

/-- Witness for C4: a non-existent path, a regular file, and a proper
symlink resolving to the real path of the target. -/
theorem isSymlinkTo_characterization_witness :
    isSymlinkTo fsSample resSample "/missing" "/tgt" = false ∧
    isSymlinkTo fsSample resSample "/file" "/tgt" = false ∧
    isSymlinkTo fsSample resSample "/link" "/tgt" = true := by
  refine ⟨?_, ?_, ?_⟩
  · exact (isSymlinkTo_characterization fsSample resSample "/missing" "/tgt").1
      (by decide)
  · exact (isSymlinkTo_characterization fsSample resSample "/file" "/tgt").2.1
      FileKind.file (by decide) (by decide)
  · exact (isSymlinkTo_characterization fsSample resSample "/link" "/tgt").2.2.mpr
      ⟨by decide, "target", by decide, "/real", by decide, by decide⟩

/-- Membership in the missing list produced by peerCheck: exactly the
peer entries whose merged application declaration is falsy (absent or
the empty string). -/
lemma peerCheck_missing_mem (vr : String → Bool) (its : String → String → Bool)
    (app : Manifest) (ps : List (String × String)) (name range : String) :
    (name, range) ∈ (peerCheck vr its app ps).1 ↔
      (name, range) ∈ ps ∧ truthy (appMergedDeps app name) = none := by
  induction ps with
  | nil => simp [peerCheck]
  | cons hd rest ih =>
    obtain ⟨n, rg⟩ := hd
    cases ht : truthy (appMergedDeps app n) with
    | none =>
      simp only [peerCheck, ht, List.mem_cons]
      constructor
      · rintro (heq | hmem)
        · have hn : name = n := congrArg Prod.fst heq
          exact ⟨Or.inl heq, by rw [hn]; exact ht⟩
        · have := ih.mp hmem
          exact ⟨Or.inr this.1, this.2⟩
      · rintro ⟨heq | hmem, hnone⟩
        · exact Or.inl heq
        · exact Or.inr (ih.mpr ⟨hmem, hnone⟩)
    | some v0 =>
      have hfst :
          (if vr rg && vr v0 then
            (if its rg v0 then peerCheck vr its app rest
             else ((peerCheck vr its app rest).1,
               (n, v0, rg) :: (peerCheck vr its app rest).2))
           else peerCheck vr its app rest).1 = (peerCheck vr its app rest).1 := by
        split
        · split
          · rfl
          · rfl
        · rfl
      simp only [peerCheck, ht, hfst, List.mem_cons, ih]
      constructor
      · rintro ⟨hmem, hnone⟩
        exact ⟨Or.inr hmem, hnone⟩
      · rintro ⟨heq | hmem, hnone⟩
        · have hn : name = n := congrArg Prod.fst heq
          rw [hn] at hnone
          rw [hnone] at ht
          cases ht
        · exact ⟨hmem, hnone⟩

/-- Membership in the out-of-range list produced by peerCheck: exactly
the peer entries whose merged application declaration is truthy, with
both sides valid ranges that do not intersect; the recorded installed
value is the merged one. -/
lemma peerCheck_mismatch_mem (vr : String → Bool) (its : String → String → Bool)
    (app : Manifest) (ps : List (String × String)) (name v range : String) :
    (name, v, range) ∈ (peerCheck vr its app ps).2 ↔
      (name, range) ∈ ps ∧ truthy (appMergedDeps app name) = some v ∧
        vr range = true ∧ vr v = true ∧ its range v = false := by
  induction ps with
  | nil => simp [peerCheck]
  | cons hd rest ih =>
    obtain ⟨n, rg⟩ := hd
    cases ht : truthy (appMergedDeps app n) with
    | none =>
      simp only [peerCheck, ht, List.mem_cons, ih]
      constructor
      · rintro ⟨hmem, hrest⟩
        exact ⟨Or.inr hmem, hrest⟩
      · rintro ⟨heq | hmem, hsome, hrest⟩
        · have hn : name = n := congrArg Prod.fst heq
          rw [hn] at hsome
          rw [hsome] at ht
          cases ht
        · exact ⟨hmem, hsome, hrest⟩
    | some v0 =>
      cases hb : (vr rg && vr v0) with
      | false =>
        simp only [peerCheck, ht, hb, Bool.false_eq_true, if_false, List.mem_cons, ih]
        constructor
        · rintro ⟨hmem, hrest⟩
          exact ⟨Or.inr hmem, hrest⟩
        · rintro ⟨heq | hmem, hsome, h3, h4, h5⟩
          · have hn : name = n := congrArg Prod.fst heq
            have hr : range = rg := congrArg Prod.snd heq
            rw [hn] at hsome
            rw [hsome] at ht
            have hv : v = v0 := Option.some.inj ht
            rw [hr] at h3
            rw [hv] at h4
            rw [h3, h4] at hb
            simp at hb
          · exact ⟨hmem, hsome, h3, h4, h5⟩
      | true =>
        cases hi : its rg v0 with
        | true =>
          simp only [peerCheck, ht, hb, hi, if_true, List.mem_cons, ih]
          constructor
          · rintro ⟨hmem, hrest⟩
            exact ⟨Or.inr hmem, hrest⟩
          · rintro ⟨heq | hmem, hsome, h3, h4, h5⟩
            · have hn : name = n := congrArg Prod.fst heq
              have hr : range = rg := congrArg Prod.snd heq
              rw [hn] at hsome
              rw [hsome] at ht
              have hv : v = v0 := Option.some.inj ht
              rw [hr, hv] at h5
              rw [h5] at hi
              cases hi
            · exact ⟨hmem, hsome, h3, h4, h5⟩
        | false =>
          simp only [peerCheck, ht, hb, hi, if_true, Bool.false_eq_true, if_false,
            List.mem_cons, ih]
          constructor
          · rintro (heq | ⟨hmem, hrest⟩)
            · have hn : name = n := congrArg Prod.fst heq
              have hvr : (v, range) = (v0, rg) := congrArg Prod.snd heq
              have hv : v = v0 := congrArg Prod.fst hvr
              have hr : range = rg := congrArg Prod.snd hvr
              have hb1 : vr rg = true := ((Bool.and_eq_true _ _).mp hb).1
              have hb2 : vr v0 = true := ((Bool.and_eq_true _ _).mp hb).2
              refine ⟨Or.inl ?_, ?_, ?_, ?_, ?_⟩
              · rw [hn, hr]
              · rw [hn, hv]; exact ht
              · rw [hr]; exact hb1
              · rw [hv]; exact hb2
              · rw [hr, hv]; exact hi
            · exact ⟨Or.inr hmem, hrest⟩
          · rintro ⟨heq | hmem, hsome, h3, h4, h5⟩
            · have hn : name = n := congrArg Prod.fst heq
              have hr : range = rg := congrArg Prod.snd heq
              rw [hn] at hsome
              rw [hsome] at ht
              have hv : v = v0 := Option.some.inj ht
              refine Or.inl ?_
              rw [hn, hr, hv]
            · exact Or.inr ⟨hmem, hsome, h3, h4, h5⟩

/-- C2 counterexample: the merged dependencies do contain an entry for
p (the empty string, which real semver parses as the any-version range
intersecting everything), yet the entry is reported as missing rather
than left unreported. -/
theorem warn_peer_deps_empty_entry_cex :
    appMergedDeps appEmptyDep "p" = some "" ∧
    vrSample "^1.0.0" = true ∧ vrSample "" = true ∧
    itsSample "^1.0.0" "" = true ∧
    warnPeerDeps vrSample itsSample appEmptyDep libPeer =
      ([("p", "^1.0.0")], []) := by
  refine ⟨by decide, by decide, by decide, by decide, by decide⟩

/-- C2 amended: a peer entry is reported missing exactly when the
merged application declaration is absent or the empty string; a peer
entry with a truthy declared value is reported as a mismatch exactly
when both sides are parseable ranges that do not intersect, and is
otherwise silently skipped (the check is a total function and never
fails the run). -/
theorem warn_peer_deps_characterization (vr : String → Bool)
    (its : String → String → Bool) (app lib : Manifest)
    (peers : List (String × String)) (name range : String)
    (hp : lib.peerDependencies = some peers) (hm : (name, range) ∈ peers) :
    ((name, range) ∈ (warnPeerDeps vr its app lib).1 ↔
      truthy (appMergedDeps app name) = none) ∧
    (∀ v, truthy (appMergedDeps app name) = some v →
      ((name, v, range) ∈ (warnPeerDeps vr its app lib).2 ↔
        (vr range = true ∧ vr v = true ∧ its range v = false))) := by
  unfold warnPeerDeps
  rw [hp]
  constructor
  · rw [peerCheck_missing_mem]
    constructor
    · rintro ⟨_, h⟩
      exact h
    · intro h
      exact ⟨hm, h⟩
  · intro v hv
    rw [peerCheck_mismatch_mem]
    constructor
    · rintro ⟨_, _, h3, h4, h5⟩
      exact ⟨h3, h4, h5⟩
    · rintro ⟨h3, h4, h5⟩
      exact ⟨hm, hv, h3, h4, h5⟩

/-- Witness for the amended C2: with two peer entries, the undeclared
one is reported missing and the declared-but-disjoint one is reported
as a version mismatch. -/
theorem warn_peer_deps_characterization_witness :
    ("q", "^1.0.0") ∈ (warnPeerDeps vrSample itsSample appMismatch libPeerTwo).1 ∧
    ("p", "^2.0.0", "^1.0.0") ∈
      (warnPeerDeps vrSample itsSample appMismatch libPeerTwo).2 := by
  constructor
  · exact ((warn_peer_deps_characterization vrSample itsSample appMismatch libPeerTwo
      [("p", "^1.0.0"), ("q", "^1.0.0")] "q" "^1.0.0" rfl (by decide)).1).mpr (by decide)
  · exact ((warn_peer_deps_characterization vrSample itsSample appMismatch libPeerTwo
      [("p", "^1.0.0"), ("q", "^1.0.0")] "p" "^1.0.0" rfl (by decide)).2 "^2.0.0"
      (by decide)).mpr (by decide)

/-- C10: the merged application dependency value follows spread
precedence — optionalDependencies over devDependencies over
dependencies — and the value a mismatch report records is exactly
that merged value (no union or intersection of the declarations). -/
theorem merged_deps_precedence (app : Manifest) (name : String) :
    (∀ v, lkp app.optionalDependencies name = some v →
      appMergedDeps app name = some v) ∧
    (lkp app.optionalDependencies name = none →
      ∀ v, lkp app.devDependencies name = some v →
        appMergedDeps app name = some v) ∧
    (lkp app.optionalDependencies name = none →
      lkp app.devDependencies name = none →
        appMergedDeps app name = lkp app.dependencies name) ∧
    (∀ vr its lib v range, (name, v, range) ∈ (warnPeerDeps vr its app lib).2 →
      appMergedDeps app name = some v) := by
  refine ⟨?_, ?_, ?_, ?_⟩
  · intro v h
    simp [appMergedDeps, h]
  · intro h v h2
    simp [appMergedDeps, h, h2]
  · intro h h2
    simp [appMergedDeps, h, h2]
  · intro vr its lib v range hmem
    unfold warnPeerDeps at hmem
    cases hp : lib.peerDependencies with
    | none =>
      rw [hp] at hmem
      simp at hmem
    | some peers =>
      rw [hp] at hmem
      have hall := (peerCheck_mismatch_mem vr its app peers name v range).mp hmem
      have hv := hall.2.1
      cases hmg : appMergedDeps app name with
      | none =>
        rw [hmg] at hv
        simp [truthy] at hv
      | some u =>
        rw [hmg] at hv
        by_cases hu : u = ""
        · simp [truthy, hu] at hv
        · simp only [truthy, if_neg hu] at hv
          exact hv

/-- Witness for C10: a name declared in all three sections merges to
the optionalDependencies value. -/
theorem merged_deps_precedence_witness :
    appMergedDeps appTriple "q" = some "3.0.0" :=
  (merged_deps_precedence appTriple "q").1 "3.0.0" (by decide)

/-- The recovery unlink never touches the global slot when the unlink
command itself does not. -/
lemma retryWorld_global (npm : NpmModel)
    (H3 : ∀ u v, npm.unlinkApp u = some v → v.globalSlot = u.globalSlot)
    (w : World) : (retryWorld npm w).globalSlot = w.globalSlot := by
  unfold retryWorld
  cases hu : npm.unlinkApp w with
  | some u => exact H3 _ _ hu
  | none => rfl

/-- Every run of the link attempts issues the link command. -/
lemma linkAttempts_mem (npm : NpmModel) (w : World) :
    Step.linkAppCmd ∈ (linkAttempts npm w).1 := by
  unfold linkAttempts
  cases h1 : npm.linkApp w with
  | some w3 => simp
  | none => cases h2 : npm.linkApp (retryWorld npm w) <;> simp

/-- A successful run of the link attempts leaves the application slot
linked and the global slot untouched. -/
lemma linkAttempts_snd_some (npm : NpmModel)
    (H2 : ∀ u v, npm.linkApp u = some v →
      v.appSlot = SlotState.linkedToLib ∧ v.globalSlot = u.globalSlot)
    (H3 : ∀ u v, npm.unlinkApp u = some v → v.globalSlot = u.globalSlot)
    (w w1 : World) (h : (linkAttempts npm w).2 = some w1) :
    w1.appSlot = SlotState.linkedToLib ∧ w1.globalSlot = w.globalSlot := by
  cases h1 : npm.linkApp w with
  | some w3 =>
    simp only [linkAttempts, h1] at h
    have hw : w3 = w1 := Option.some.inj h
    rw [← hw]
    exact ⟨(H2 _ _ h1).1, (H2 _ _ h1).2⟩
  | none =>
    cases h2 : npm.linkApp (retryWorld npm w) with
    | some w5 =>
      simp only [linkAttempts, h1, h2] at h
      have hw : w5 = w1 := Option.some.inj h
      rw [← hw]
      refine ⟨(H2 _ _ h2).1, ?_⟩
      rw [(H2 _ _ h2).2]
      exact retryWorld_global npm H3 w
    | none =>
      simp only [linkAttempts, h1, h2] at h
      cases h

/-- The cleanup of a stale install never touches the global slot when
the removal itself does not. -/
lemma cleanStep_global (npm : NpmModel)
    (H4 : ∀ u v, npm.rmApp u = some v → v.globalSlot = u.globalSlot)
    (w : World) (f : Bool) : (cleanStep npm w f).2.globalSlot = w.globalSlot := by
  cases f with
  | false => simp [cleanStep]
  | true =>
    cases hr : npm.rmApp w with
    | some w2 =>
      simp only [cleanStep, hr, if_true]
      exact H4 _ _ hr
    | none => simp [cleanStep, hr]

/-- A successful application phase leaves the global slot untouched
and either skipped (slot already linked) or linked the slot. -/
lemma appPhase_snd_some (npm : NpmModel)
    (H2 : ∀ u v, npm.linkApp u = some v →
      v.appSlot = SlotState.linkedToLib ∧ v.globalSlot = u.globalSlot)
    (H3 : ∀ u v, npm.unlinkApp u = some v → v.globalSlot = u.globalSlot)
    (H4 : ∀ u v, npm.rmApp u = some v → v.globalSlot = u.globalSlot)
    (w : World) (a f : Bool) (w1 : World)
    (h : (appPhase npm w a f).2 = some w1) :
    w1.globalSlot = w.globalSlot ∧
      ((a = true ∧ w1 = w) ∨ w1.appSlot = SlotState.linkedToLib) := by
  cases a with
  | true =>
    simp only [appPhase, if_true] at h
    have hw : w = w1 := Option.some.inj h
    rw [← hw]
    exact ⟨rfl, Or.inl ⟨rfl, rfl⟩⟩
  | false =>
    simp only [appPhase, Bool.false_eq_true, if_false] at h
    obtain ⟨ha, hgl⟩ := linkAttempts_snd_some npm H2 H3 _ _ h
    refine ⟨?_, Or.inr ha⟩
    rw [hgl]
    exact cleanStep_global npm H4 w f

/-- The tail phase does not change the outcome of the run. -/
lemma withTail_snd (dw : Bool) (pre : List Step) (res : List Step × Option World) :
    (withTail dw pre res).2 = res.2 := by
  rcases res with ⟨s, o⟩
  cases o <;> rfl

/-- Membership of a prefix step is preserved by the tail phase. -/
lemma withTail_mem_pre (dw : Bool) (pre : List Step) (res : List Step × Option World)
    (x : Step) (hx : x ∈ pre) : x ∈ (withTail dw pre res).1 := by
  rcases res with ⟨s, o⟩
  cases o <;> simp [withTail] <;> exact Or.inl hx

/-- Membership of a phase step is preserved by the tail phase. -/
lemma withTail_mem_res (dw : Bool) (pre : List Step) (res : List Step × Option World)
    (x : Step) (hx : x ∈ res.1) : x ∈ (withTail dw pre res).1 := by
  rcases res with ⟨s, o⟩
  simp only at hx
  cases o <;> simp [withTail] <;> tauto

/-- The application phase always reports the skip or issues the link
command. -/
lemma appPhase_progress (npm : NpmModel) (w : World) (a f : Bool) :
    Step.skipApp ∈ (appPhase npm w a f).1 ∨ Step.linkAppCmd ∈ (appPhase npm w a f).1 := by
  cases a with
  | true =>
    left
    simp [appPhase]
  | false =>
    right
    simp only [appPhase, Bool.false_eq_true, if_false]
    exact List.mem_append.mpr (Or.inr (linkAttempts_mem npm _))

/-- A successful run of the index-variant link flow ends with both
slots linked to the library, provided the package manager commands
have their documented effects. -/
lemma linkFlowIndex_snd_some (npm : NpmModel)
    (H1 : ∀ u v, npm.linkGlobal u = some v →
      v.globalSlot = SlotState.linkedToLib ∧ v.appSlot = u.appSlot)
    (H2 : ∀ u v, npm.linkApp u = some v →
      v.appSlot = SlotState.linkedToLib ∧ v.globalSlot = u.globalSlot)
    (H3 : ∀ u v, npm.unlinkApp u = some v → v.globalSlot = u.globalSlot)
    (H4 : ∀ u v, npm.rmApp u = some v → v.globalSlot = u.globalSlot)
    (dw : Bool) (w w1 : World) (h : (linkFlowIndex npm dw w).2 = some w1) :
    w1.globalSlot = SlotState.linkedToLib ∧ w1.appSlot = SlotState.linkedToLib := by
  by_cases hg : w.globalSlot = SlotState.linkedToLib
  · have hgb : (w.globalSlot == SlotState.linkedToLib) = true := by
      rw [hg]; decide
    simp only [linkFlowIndex, hgb, if_true, withTail_snd] at h
    obtain ⟨hgl, hwa⟩ := appPhase_snd_some npm H2 H3 H4 w _ _ w1 h
    constructor
    · rw [hgl]
      exact hg
    · rcases hwa with ⟨hat, hww⟩ | hl
      · rw [hww]
        exact eq_of_beq hat
      · exact hl
  · have hgb : (w.globalSlot == SlotState.linkedToLib) = false := by
      cases hw : w.globalSlot <;> simp_all
    simp only [linkFlowIndex, hgb, Bool.false_eq_true, if_false] at h
    cases hlg : npm.linkGlobal w with
    | none =>
      simp only [hlg] at h
      cases h
    | some w2 =>
      simp only [hlg, withTail_snd] at h
      obtain ⟨hgl, hwa⟩ := appPhase_snd_some npm H2 H3 H4 w2 _ _ w1 h
      obtain ⟨hg2, hap⟩ := H1 _ _ hlg
      constructor
      · rw [hgl]
        exact hg2
      · rcases hwa with ⟨hat, hww⟩ | hl
        · rw [hww, hap]
          exact eq_of_beq hat
        · exact hl

/-- C3 counterexample: in the part variant, a second run after a
successful link run still executes the global link command and never
reports the global slot as already linked. -/
theorem link_flow_part_rerun_global_cex :
    (linkFlowPart npmGood false wEmpty).2 = some wBoth ∧
    Step.ensureGlobalCmd ∈ (linkFlowPart npmGood false wBoth).1 ∧
    Step.skipGlobal ∉ (linkFlowPart npmGood false wBoth).1 := by
  refine ⟨by decide, by decide, by decide⟩

/-- C3 amended (index variant): after any successful link run, a
second run detects both slots as linked, reports the skip for both,
performs no link-creating step and leaves the world unchanged —
provided the package manager commands have their documented effects. -/
theorem link_flow_index_idempotent (npm : NpmModel) (dw : Bool)
    (H1 : ∀ u v, npm.linkGlobal u = some v →
      v.globalSlot = SlotState.linkedToLib ∧ v.appSlot = u.appSlot)
    (H2 : ∀ u v, npm.linkApp u = some v →
      v.appSlot = SlotState.linkedToLib ∧ v.globalSlot = u.globalSlot)
    (H3 : ∀ u v, npm.unlinkApp u = some v → v.globalSlot = u.globalSlot)
    (H4 : ∀ u v, npm.rmApp u = some v → v.globalSlot = u.globalSlot)
    (w w1 : World) (steps : List Step)
    (h : linkFlowIndex npm dw w = (steps, some w1)) :
    linkFlowIndex npm dw w1 =
      ([Step.status true true false, Step.skipGlobal, Step.skipApp, Step.warnPeers] ++
        (if dw then [Step.watch] else []), some w1) := by
  have hsnd : (linkFlowIndex npm dw w).2 = some w1 := by
    rw [h]
  obtain ⟨hg, ha⟩ := linkFlowIndex_snd_some npm H1 H2 H3 H4 dw w w1 hsnd
  have d1 : (w1.globalSlot == SlotState.linkedToLib) = true := by
    rw [hg]; decide
  have d2 : (w1.appSlot == SlotState.linkedToLib) = true := by
    rw [ha]; decide
  have d3 : (w1.appSlot == SlotState.presentOther) = false := by
    rw [ha]; decide
  simp [linkFlowIndex, appPhase, withTail, d1, d2, d3]

/-- Witness for the amended C3: a concrete successful first run from
the empty world, whose resulting world makes the second run a pure
skip. -/
theorem link_flow_index_idempotent_witness :
    linkFlowIndex npmGood false wBoth =
      ([Step.status true true false, Step.skipGlobal, Step.skipApp, Step.warnPeers],
        some wBoth) := by
  have h := link_flow_index_idempotent npmGood false (by decide) (by decide)
    (by decide) (by decide) wEmpty wBoth
    [Step.status false false false, Step.ensureGlobalCmd, Step.linkAppCmd,
      Step.verify true, Step.warnPeers] (by decide)
  simpa using h

/-- C5: with the global slot already linked and an empty application
slot, when the application link command fails on both attempts the
flow runs link, tolerated unlink, relink — exactly two link attempts —
then aborts with no further retries, executing neither the
peer-dependency warning nor the watcher. -/
theorem app_link_single_retry (npm : NpmModel) (dw : Bool) (w w2 : World)
    (hg : w.globalSlot = SlotState.linkedToLib)
    (ha : w.appSlot = SlotState.absent)
    (h1 : npm.linkApp w = none)
    (h2 : npm.unlinkApp w = some w2 ∨ (npm.unlinkApp w = none ∧ w2 = w))
    (h3 : npm.linkApp w2 = none) :
    linkFlowIndex npm dw w =
      ([Step.status true false false, Step.skipGlobal, Step.linkAppCmd,
        Step.unlinkAppCmd, Step.linkAppCmd], none) ∧
    Step.warnPeers ∉ (linkFlowIndex npm dw w).1 ∧
    Step.watch ∉ (linkFlowIndex npm dw w).1 ∧
    (linkFlowIndex npm dw w).1.count Step.linkAppCmd = 2 := by
  have hrw : retryWorld npm w = w2 := by
    rcases h2 with hu | ⟨hu, hw2⟩
    · simp [retryWorld, hu]
    · rw [hw2]
      simp [retryWorld, hu]
  have d1 : (w.globalSlot == SlotState.linkedToLib) = true := by
    rw [hg]; decide
  have d2 : (w.appSlot == SlotState.linkedToLib) = false := by
    rw [ha]; decide
  have d3 : (w.appSlot == SlotState.presentOther) = false := by
    rw [ha]; decide
  have hE : linkFlowIndex npm dw w =
      ([Step.status true false false, Step.skipGlobal, Step.linkAppCmd,
        Step.unlinkAppCmd, Step.linkAppCmd], none) := by
    simp [linkFlowIndex, appPhase, cleanStep, linkAttempts, withTail,
      d1, d2, d3, h1, hrw, h3]
  refine ⟨hE, ?_, ?_, ?_⟩
  · rw [hE]
    decide
  · rw [hE]
    decide
  · rw [hE]
    decide

/-- Witness for C5: a package manager whose application link always
fails, started from a world with only the global slot linked. -/
theorem app_link_single_retry_witness :
    linkFlowIndex npmDead false wGlobalOnly =
      ([Step.status true false false, Step.skipGlobal, Step.linkAppCmd,
        Step.unlinkAppCmd, Step.linkAppCmd], none) ∧
    Step.warnPeers ∉ (linkFlowIndex npmDead false wGlobalOnly).1 ∧
    Step.watch ∉ (linkFlowIndex npmDead false wGlobalOnly).1 ∧
    (linkFlowIndex npmDead false wGlobalOnly).1.count Step.linkAppCmd = 2 :=
  app_link_single_retry npmDead false wGlobalOnly wGlobalOnly (by decide) (by decide)
    (by decide) (Or.inl (by decide)) (by decide)

/-- C6 counterexample: in the index variant, a failing global link
command aborts the run before the application-link step, with no
advisory warning and a failing outcome. -/
theorem global_ensure_fatal_index_cex :
    linkFlowIndex npmNoGlobal false wEmpty =
      ([Step.status false false false, Step.ensureGlobalCmd], none) ∧
    Step.linkAppCmd ∉ (linkFlowIndex npmNoGlobal false wEmpty).1 ∧
    Step.globalWarn ∉ (linkFlowIndex npmNoGlobal false wEmpty).1 ∧
    (linkFlowIndex npmNoGlobal false wEmpty).2 = none := by
  refine ⟨by decide, by decide, by decide, by decide⟩

/-- C6 amended (part variant): a failing global link command is
advisory — the run logs the warning and still proceeds to the
application-link step (the skip report or the link command). -/
theorem global_ensure_advisory_part (npm : NpmModel) (dw : Bool) (w : World)
    (h : npm.linkGlobal w = none) :
    Step.globalWarn ∈ (linkFlowPart npm dw w).1 ∧
    (Step.skipApp ∈ (linkFlowPart npm dw w).1 ∨
      Step.linkAppCmd ∈ (linkFlowPart npm dw w).1) := by
  constructor
  · simp only [linkFlowPart, h]
    exact withTail_mem_pre _ _ _ _ (by simp)
  · rcases appPhase_progress npm w (w.appSlot == SlotState.linkedToLib)
      (w.appSlot == SlotState.presentOther) with hs | hl
    · left
      simp only [linkFlowPart, h]
      exact withTail_mem_res _ _ _ _ hs
    · right
      simp only [linkFlowPart, h]
      exact withTail_mem_res _ _ _ _ hl

/-- Witness for the amended C6: the part variant with a failing global
link command still reaches the application-link step. -/
theorem global_ensure_advisory_part_witness :
    Step.globalWarn ∈ (linkFlowPart npmNoGlobal false wEmpty).1 ∧
    (Step.skipApp ∈ (linkFlowPart npmNoGlobal false wEmpty).1 ∨
      Step.linkAppCmd ∈ (linkFlowPart npmNoGlobal false wEmpty).1) :=
  global_ensure_advisory_part npmNoGlobal false wEmpty (by decide)

/-- C8 counterexample: the part variant of the unlink-global flow
performs no direct removal of the global alias directory — only the
tolerated global unlink command — even though the run exits
successfully. -/
theorem unlink_global_no_rm_part_cex :
    unlinkFlowPart true true true false =
      ([UStep.unlinkCmd, UStep.installCmd, UStep.unlinkGlobalCmd,
        UStep.unlinkGlobalWarn], true) ∧
    UStep.rmGlobal ∉ (unlinkFlowPart true true true false).1 := by
  refine ⟨by decide, by decide⟩

/-- C8 amended (index variant): with unlink-global requested and the
reinstall step succeeded, the flow always runs the global unlink
command, additionally removes the global alias directory whenever it
still exists, and exits successfully whatever the outcome of the
tolerated unlink and removal. -/
theorem unlink_global_double_removal (aOk gOk gExists rmOk : Bool) :
    (unlinkFlowIndex aOk true true gOk gExists rmOk).2 = true ∧
    UStep.unlinkGlobalCmd ∈ (unlinkFlowIndex aOk true true gOk gExists rmOk).1 ∧
    (gExists = true →
      UStep.rmGlobal ∈ (unlinkFlowIndex aOk true true gOk gExists rmOk).1) := by
  refine ⟨?_, ?_, ?_⟩
  · cases aOk <;> cases gOk <;> cases gExists <;> cases rmOk <;> decide
  · cases aOk <;> cases gOk <;> cases gExists <;> cases rmOk <;> decide
  · intro hgE
    subst hgE
    cases aOk <;> cases gOk <;> cases rmOk <;> decide

/-- Witness for the amended C8: both tolerated commands fail, the
directory still exists, yet it is removed and the run succeeds. -/
theorem unlink_global_double_removal_witness :
    (unlinkFlowIndex false true true false true false).2 = true ∧
    UStep.unlinkGlobalCmd ∈ (unlinkFlowIndex false true true false true false).1 ∧
    UStep.rmGlobal ∈ (unlinkFlowIndex false true true false true false).1 := by
  have h := unlink_global_double_removal false false true false
  exact ⟨h.1, h.2.1, h.2.2 rfl⟩

end LinkLib
